import Mathlib

/-!
Shallow embedding of the auction bidding engine of `src/app.py`
(a Flask application driving a live player auction), together with
proofs settling the frozen claims about it.

Money amounts are Python `int`s, modelled as `Int`.  The player store
(`players.csv`, read into a pandas DataFrame) is modelled as a
`List Player`; the in-memory `current_auction` dict is `LotState` and the
`sequential_auction` dict is `SeqState`.  Configuration values read from
`config.json` (`teams.names`, `teams.budget`, `teams.max_players`,
`auction.base_price`, `auction.increments[0..2]`) are the fields of
`Config`.  Flask side channels (flash messages, redirects, SSE
broadcasts) carry no engine state and are elided; persistence
(`save_players`) is the returned `List Player`.
-/

namespace Auction

/-- Configuration snapshot, as loaded by `load_config` in `app.py`.
`inc0`, `inc1`, `inc2` are `config["auction"]["increments"][0..2]`. -/
structure Config where
  teams : List String
  budget : Int
  base_price : Int
  max_players : Int
  inc0 : Int
  inc1 : Int
  inc2 : Int
deriving DecidableEq

/-- One row of the player store (`players.csv`); only the fields the
bidding engine reads or writes. -/
structure Player where
  player_id : Nat
  base_price : Int
  team : String
  status : String
  sold_price : Int
deriving DecidableEq

/-- The in-memory `current_auction` dict of `app.py`. -/
structure LotState where
  player_id : Option Nat
  current_bid : Int
  current_team : String
  status : String
deriving DecidableEq

/-- The in-memory `sequential_auction` dict of `app.py`. -/
structure SeqState where
  active : Bool
  current_index : Nat
  player_sequence : List Nat
deriving DecidableEq

/-- Model of Python's `str.lower()` (the statuses in the store are
ASCII, for which mapping `Char.toLower` over the characters is exact). -/
def str_lower (s : String) : String :=
  ⟨s.data.map Char.toLower⟩

/-- Contribution of one player row to a team's spent total:
`sold_price` if the row's `team` column equals the team, else 0. -/
def contrib (team : String) (p : Player) : Int :=
  if p.team = team then p.sold_price else 0

/-- Total spent of a team:
`pd.to_numeric(df[df["team"] == team]["sold_price"]).sum()` in `app.py`. -/
def teamSpent (df : List Player) (team : String) : Int :=
  (df.map (contrib team)).sum

/-- Count of rows with this team and status (lowercased) `"sold"`
(`sold_count` in `compute_team_limits`). -/
def soldCount (df : List Player) (team : String) : Int :=
  ((df.countP (fun p => p.team == team && str_lower p.status == "sold") : Nat) : Int)

/-- Count of rows with this team and status (lowercased) `"captain"`
(`captain_count` in `compute_team_limits`). -/
def captainCount (df : List Player) (team : String) : Int :=
  ((df.countP (fun p => p.team == team && str_lower p.status == "captain") : Nat) : Int)

/-- Ids of players whose status (lowercased) is `"unsold"`, in store
order: `df[df["status"].str.lower() == "unsold"]["player_id"].tolist()`. -/
def unsoldIds (df : List Player) : List Nat :=
  (df.filter (fun p => str_lower p.status == "unsold")).map (·.player_id)

/-- One step of the tiered increment rule shared by `get_bid_increments`
and the inner `next_step` closure of `compute_team_limits`: below
`2×base` add `increments[0]`, below `4×base` add `increments[1]`,
otherwise add `increments[2]`. -/
def next_step (cfg : Config) (v : Int) : Int :=
  if v < cfg.base_price * 2 then v + cfg.inc0
  else if v < cfg.base_price * 4 then v + cfg.inc1
  else v + cfg.inc2

/-- The `for i in range(n)` loop of `get_bid_increments`: append the
running value, then advance it by the tier rule. -/
def ladderFrom (cfg : Config) : Nat → Int → List Int
  | 0, _ => []
  | n + 1, cur => cur :: ladderFrom cfg n (next_step cfg cur)

/-- `get_bid_increments(current_bid)` of `app.py`: the 10-element
increment ladder starting at `current_bid`. -/
def get_bid_increments (cfg : Config) (current_bid : Int) : List Int :=
  ladderFrom cfg 10 current_bid

/-- The `min_next_bid` / `second_next_bid` pair computed at the top of
`compute_team_limits` (lines 240-251 of `app.py`): for a first bid with
no leading team at or below base price, the minimum is the base price;
otherwise the first (and second) ladder values strictly above the
current bid. -/
def min_second_next (cfg : Config) (player : Player) (current_bid : Int)
    (current_team : String) : Option Int × Option Int :=
  if current_bid ≤ player.base_price ∧ current_team = "" then
    let incs_after_base :=
      (get_bid_increments cfg player.base_price).filter (fun p => player.base_price < p)
    (some player.base_price, incs_after_base.head?)
  else
    let next_prices :=
      (get_bid_increments cfg current_bid).filter (fun p => current_bid < p)
    (next_prices.head?, next_prices[1]?)

/-- The per-team `max_bid` computed inside `compute_team_limits`
(lines 262-269 of `app.py`): 0 if the team is at or above the squad
ceiling, else the remaining budget minus base price reserved for each
slot still needed after this purchase, floored at 0. -/
def max_bid (cfg : Config) (df : List Player) (team : String) : Int :=
  let sold_count := soldCount df team
  let captain_count := captainCount df team
  let remaining := cfg.budget - teamSpent df team
  if cfg.max_players ≤ sold_count + captain_count then 0
  else
    let reserve_slots := max 0 (cfg.max_players - captain_count - sold_count - 1)
    max 0 (remaining - reserve_slots * cfg.base_price)

/-- The bounded walk computing `highest_valid` in `compute_team_limits`
(the `for _ in range(200)` loop). -/
def hv_loop (cfg : Config) (maxB : Int) : Nat → Int → Int → Int
  | 0, _, hv => hv
  | fuel + 1, cand, hv =>
    if cand ≤ maxB then
      let new_val := next_step cfg cand
      if new_val = cand then cand
      else hv_loop cfg maxB fuel new_val cand
    else hv

/-- The per-team record built by `compute_team_limits`. -/
structure TeamLimit where
  remaining : Int
  players : Int
  players_with_captain : Int
  max_bid : Int
  max_valid_bid : Int
  can_bid : Bool
  can_bid_now : Bool
  near_limit : Bool
deriving DecidableEq

/-- Body of the `for team in TEAMS` loop of `compute_team_limits`,
given the precomputed `min_next_bid` / `second_next_bid`. -/
def team_limit_for (cfg : Config) (df : List Player) (player : Player)
    (min_next_bid second_next_bid : Option Int) (team : String) : TeamLimit :=
  let sold_count := soldCount df team
  let captain_count := captainCount df team
  let remaining := cfg.budget - teamSpent df team
  let mb := max_bid cfg df team
  let can_bid_now :=
    match min_next_bid with
    | none => false
    | some m => decide (m ≤ mb)
  let near_limit :=
    can_bid_now &&
      (match second_next_bid with
       | none => false
       | some s => decide (mb < s))
  let highest_valid :=
    match min_next_bid with
    | none => 0
    | some start => if start ≤ mb then hv_loop cfg mb 200 start 0 else 0
  { remaining := remaining
    players := sold_count
    players_with_captain := sold_count + captain_count
    max_bid := mb
    max_valid_bid := highest_valid
    can_bid := decide (player.base_price ≤ mb)
    can_bid_now := can_bid_now
    near_limit := near_limit }

/-- `compute_team_limits(df, player, current_bid, current_team)` of
`app.py`: the mapping from each configured team name to its limits. -/
def compute_team_limits (cfg : Config) (df : List Player) (player : Player)
    (current_bid : Int) (current_team : String) : List (String × TeamLimit) :=
  let ms := min_second_next cfg player current_bid current_team
  cfg.teams.map (fun t => (t, team_limit_for cfg df player ms.1 ms.2 t))

/-- Python dict lookup `limits.get(team)` on the result of
`compute_team_limits`. -/
def limits_get (limits : List (String × TeamLimit)) (team : String) : Option TeamLimit :=
  (limits.find? (fun x => x.1 == team)).map (fun x => x.2)

/-- Update the first store row whose `player_id` matches (pandas
`df.at[idx[0], ...]` writes through the first matching index). -/
def updateFirst (df : List Player) (pid : Nat) (f : Player → Player) : List Player :=
  match df with
  | [] => []
  | p :: rest => if p.player_id == pid then f p :: rest else p :: updateFirst rest pid f

/-- The `max_allowed_bid` of the `sell` branch of the `/auction` route
(lines 478-487 of `app.py`): remaining budget minus
`max(0, 8 − (current_players + 1))` base prices, with the hard-coded
minimum squad of 8 and no floor at zero. -/
def max_allowed_bid (cfg : Config) (df : List Player) (team : String) : Int :=
  let current_players := soldCount df team + captainCount df team
  let players_needed_after_this := max 0 (8 - (current_players + 1))
  (cfg.budget - teamSpent df team) - players_needed_after_this * cfg.base_price

/-- The `sell` branch of the `/auction` route (lines 448-506 of
`app.py`).  Returns the persisted store on acceptance, `none` when the
sale is rejected (unknown player, already sold, squad full at the
hard-coded ceiling of 9, budget exceeded, or above `max_allowed_bid`). -/
def apply_sell (cfg : Config) (df : List Player) (pid : Nat) (team : String)
    (sold_price : Int) : Option (List Player) :=
  match df.find? (fun p => p.player_id == pid) with
  | none => none
  | some p =>
    if str_lower p.status == "sold" then none
    else
      let current_players := soldCount df team + captainCount df team
      if 9 ≤ current_players then none
      else if cfg.budget < teamSpent df team + sold_price then none
      else if max_allowed_bid cfg df team < sold_price then none
      else some (updateFirst df pid
        (fun q => { q with team := team, status := "sold", sold_price := sold_price }))

/-- The commit portion of the `sold` action of `/live-bidding`
(lines 641-658 of `app.py`), taking the sale team and bid after the
zero-bid substitution: reject when there is no leading team, the team is
not configured (`limits.get` misses), or the bid exceeds the team's
`max_bid`; otherwise persist the player as sold. -/
def apply_mark_sold (cfg : Config) (df : List Player) (player : Player)
    (sale_team : String) (bid : Int) : Option (List Player) :=
  if sale_team = "" then none
  else
    match limits_get (compute_team_limits cfg df player bid "") sale_team with
    | none => none
    | some tl =>
      if tl.max_bid < bid then none
      else some (updateFirst df player.player_id
        (fun q => { q with team := sale_team, status := "sold", sold_price := bid }))

/-- Result of a `/live-bidding` `sold` action: the (possibly updated)
store, the (possibly mutated) in-memory lot, and whether the sale was
accepted and persisted. -/
structure MarkSoldResult where
  df : List Player
  lot : LotState
  accepted : Bool
deriving DecidableEq

/-- The `sold` action of `/live-bidding` (lines 635-665 of `app.py`).
When `current_bid == 0` the code first overwrites the lot's
`current_bid` with the player's base price and `current_team` with the
form-supplied team; all three rejection paths then return with that
(possibly mutated) lot still in memory and the store untouched, while
acceptance persists the sale and resets the lot to `waiting`. -/
def mark_sold (cfg : Config) (df : List Player) (player : Player) (lot : LotState)
    (form_team : String) : MarkSoldResult :=
  let lot1 :=
    if lot.current_bid = 0 then
      { lot with current_bid := player.base_price, current_team := form_team }
    else lot
  match apply_mark_sold cfg df player lot1.current_team lot1.current_bid with
  | some df2 => ⟨df2, ⟨none, 0, "", "waiting"⟩, true⟩
  | none => ⟨df, lot1, false⟩

/-- The `valid_next` list of the `update_bid` action (lines 620-624 of
`app.py`): ladder values strictly above the current bid, plus the
current bid itself as a permissible first bid when there is no leading
team and the current bid is at least the player's base price. -/
def valid_next_bids (cfg : Config) (player : Player) (lot : LotState) : List Int :=
  let base := (get_bid_increments cfg lot.current_bid).filter (fun p => lot.current_bid < p)
  if lot.current_team = "" ∧ player.base_price ≤ lot.current_bid then
    base ++ [lot.current_bid]
  else base

/-- The `update_bid` action of `/live-bidding` (lines 584-633 of
`app.py`): reject an empty or unconfigured team, a bid not above the
leading bid (or below the shown price when no leader), a bid above the
team's `max_bid`, or a bid outside `valid_next`; otherwise install the
new bid and leading team.  `compute_team_limits` is called without a
leading team, as in the source. -/
def update_bid (cfg : Config) (df : List Player) (player : Player) (lot : LotState)
    (team : String) (new_bid : Int) : Option LotState :=
  if team = "" then none
  else
    match limits_get (compute_team_limits cfg df player lot.current_bid "") team with
    | none => none
    | some tl =>
      if lot.current_team ≠ "" then
        if new_bid ≤ lot.current_bid then none
        else if tl.max_bid < new_bid then none
        else if new_bid ∈ valid_next_bids cfg player lot then
          some ⟨lot.player_id, new_bid, team, "bidding"⟩
        else none
      else
        if new_bid < lot.current_bid then none
        else if tl.max_bid < new_bid then none
        else if new_bid ∈ valid_next_bids cfg player lot then
          some ⟨lot.player_id, new_bid, team, "bidding"⟩
        else none

/-- The `start_bidding` action of `/live-bidding` (lines 564-582 of
`app.py`).  The route first evaluates
`df[df["player_id"] == player_id].iloc[0]`, which raises an uncaught
`IndexError` when no such player exists (before any state change, so the
lot is untouched in that case); otherwise the action unconditionally
replaces the lot, with no check that one is already active. -/
def start_bidding (df : List Player) (pid : Nat) (_lot : LotState) :
    Except String LotState :=
  match df.find? (fun p => p.player_id == pid) with
  | none => Except.error "IndexError"
  | some player => Except.ok ⟨some pid, player.base_price, "", "bidding"⟩

/-- The `/next-player` route (lines 849-894 of `app.py`), after the
admin and `sequential_auction["active"]` checks: increment the index;
past the end of the sequence either start a new round over exactly the
still-unsold players or finish; within bounds start the next queued
player — in every starting case at the global configured `BASE_PRICE`. -/
def next_player (cfg : Config) (df : List Player) (seq : SeqState) (lot : LotState) :
    SeqState × LotState :=
  let idx := seq.current_index + 1
  if seq.player_sequence.length ≤ idx then
    let unsold := unsoldIds df
    if 0 < unsold.length then
      (⟨true, 0, unsold⟩, ⟨some (unsold.headD 0), cfg.base_price, "", "bidding"⟩)
    else
      (⟨false, idx, seq.player_sequence⟩,
       ⟨none, lot.current_bid, lot.current_team, "waiting"⟩)
  else
    (⟨seq.active, idx, seq.player_sequence⟩,
     ⟨some (seq.player_sequence.getD idx 0), cfg.base_price, "", "bidding"⟩)

/-- Python runtime errors relevant here. -/
inductive PyError where
  | nameError (name : String)
deriving DecidableEq

/-- The name `bump_auction_version` is called at lines 938 and 1003 of
`app.py` but defined nowhere in the module or its imports, so every call
raises `NameError` at the call site. -/
def bump_auction_version : Except PyError Unit :=
  Except.error (PyError.nameError "bump_auction_version")

/-- Outcome of a reset route: the persisted store, the in-memory lot,
and whether the handler completed normally or raised. -/
structure RouteResult where
  df : List Player
  lot : LotState
  outcome : Except PyError Unit

/-- The `/reset` route (`reset_auction`, lines 915-941 of `app.py`):
rewrite every row with status exactly `"sold"` back to unsold, persist,
reset the lot to `waiting`, broadcast, then call the undefined
`bump_auction_version`, raising `NameError` before the flash/redirect. -/
def reset_auction (df : List Player) (_lot : LotState) : RouteResult :=
  let df2 := df.map (fun p =>
    if p.status = "sold" then
      { p with status := "unsold", team := "", sold_price := 0 }
    else p)
  ⟨df2, ⟨none, 0, "", "waiting"⟩, bump_auction_version⟩

/-- The `/reset-player/<id>` route (lines 977-1007 of `app.py`): if the
player exists, persist it as unsold; then, only when it is the currently
active lot, reset the lot and call the undefined `bump_auction_version`,
raising `NameError`; otherwise the handler completes normally. -/
def reset_player (df : List Player) (lot : LotState) (pid : Nat) : RouteResult :=
  if df.any (fun p => p.player_id == pid) then
    let df2 := updateFirst df pid
      (fun p => { p with status := "unsold", team := "", sold_price := 0 })
    if lot.player_id = some pid then
      ⟨df2, ⟨none, 0, "", "waiting"⟩, bump_auction_version⟩
    else ⟨df2, lot, Except.ok ()⟩
  else ⟨df, lot, Except.ok ()⟩

/-- One repository-level sale operation, for the budget-invariant
claim: a `/auction` sell, or a `/live-bidding` sold commit with its
post-substitution sale team and bid. -/
inductive SaleOp where
  | sell (pid : Nat) (team : String) (sold_price : Int)
  | markSold (player : Player) (team : String) (bid : Int)
deriving DecidableEq

/-- The money amount an operation would record. -/
def SaleOp.price : SaleOp → Int
  | .sell _ _ p => p
  | .markSold _ _ b => b

/-- Apply one sale operation through the corresponding route. -/
def applyOp (cfg : Config) (df : List Player) : SaleOp → Option (List Player)
  | .sell pid team price => apply_sell cfg df pid team price
  | .markSold player team bid => apply_mark_sold cfg df player team bid

/-- Run a sequence of sale operations; a rejected operation leaves the
store unchanged, exactly as the routes do. -/
def runAccepted (cfg : Config) (df : List Player) (ops : List SaleOp) : List Player :=
  ops.foldl (fun d op => (applyOp cfg d op).getD d) df

/-! Concrete fixtures used by the scenario and counterexample theorems. -/

/-- Configuration of spec scenario A: base price 500,000, increments
[100,000, 250,000, 500,000], default budget and squad size. -/
def cfgA : Config := ⟨["A", "B"], 25000000, 500000, 9, 100000, 250000, 500000⟩

/-- Default configuration values of `load_config` (budget 25,000,000,
base price 5,000,000, increments [1,000,000, 2,500,000, 5,000,000]). -/
def cfgT : Config := ⟨["A", "B"], 25000000, 5000000, 9, 1000000, 2500000, 5000000⟩

/-- Store with a single unsold player. -/
def df5 : List Player := [⟨1, 500000, "", "unsold", 0⟩]

/-- The single player of `df5`. -/
def p5 : Player := ⟨1, 500000, "", "unsold", 0⟩

/-- Store with two unsold players whose base prices differ from the
configured global base price of `cfgA`. -/
def df4 : List Player := [⟨1, 300000, "", "unsold", 0⟩, ⟨2, 300000, "", "unsold", 0⟩]

/-- Store with two unsold players of distinct base prices. -/
def df7 : List Player := [⟨1, 500000, "", "unsold", 0⟩, ⟨2, 600000, "", "unsold", 0⟩]

/-- Store in which team `"A"` holds 8 sold players: one purchase away
from the squad ceiling of 9 under `cfgA`. -/
def df8 : List Player :=
  [⟨1, 500000, "A", "sold", 500000⟩, ⟨2, 500000, "A", "sold", 500000⟩,
   ⟨3, 500000, "A", "sold", 500000⟩, ⟨4, 500000, "A", "sold", 500000⟩,
   ⟨5, 500000, "A", "sold", 500000⟩, ⟨6, 500000, "A", "sold", 500000⟩,
   ⟨7, 500000, "A", "sold", 500000⟩, ⟨8, 500000, "A", "sold", 500000⟩]

/-- Store in which team `"A"` holds 5 sold players (at zero recorded
price, so both budget bounds see the same remaining budget) and player
6 is unsold. -/
def dfT : List Player :=
  [⟨1, 5000000, "A", "sold", 0⟩, ⟨2, 5000000, "A", "sold", 0⟩,
   ⟨3, 5000000, "A", "sold", 0⟩, ⟨4, 5000000, "A", "sold", 0⟩,
   ⟨5, 5000000, "A", "sold", 0⟩, ⟨6, 5000000, "", "unsold", 0⟩]

/-- Configuration with a tiny budget, for the budget-invariant
counterexample. -/
def cfgC2 : Config := ⟨["A", "B"], 100, 500000, 9, 100000, 250000, 500000⟩

/-- Store whose team `"B"` spends exactly the `cfgC2` budget, one row of
it a captain carrying a negative recorded `sold_price`. -/
def dfC2 : List Player :=
  [⟨1, 500000, "B", "captain", -50⟩, ⟨2, 500000, "B", "sold", 150⟩]

/-! Helper lemmas. -/

theorem teamSpent_cons (p : Player) (df : List Player) (t : String) :
    teamSpent (p :: df) t = contrib t p + teamSpent df t := by
  simp [teamSpent]

theorem teamSpent_updateFirst (df : List Player) (pid : Nat) (f : Player → Player)
    (t : String) :
    teamSpent (updateFirst df pid f) t =
      match df.find? (fun p => p.player_id == pid) with
      | none => teamSpent df t
      | some q => teamSpent df t - contrib t q + contrib t (f q) := by
  induction df with
  | nil => rfl
  | cons p rest ih =>
    by_cases h : (p.player_id == pid) = true
    · rw [List.find?_cons_of_pos rest h]
      rw [updateFirst, if_pos h, teamSpent_cons, teamSpent_cons]
      ring
    · have h' : (p.player_id == pid) = false := by simpa using h
      rw [List.find?_cons_of_neg rest (by simp [h'])]
      rw [updateFirst, if_neg (by simp [h']), teamSpent_cons, ih]
      cases hf : rest.find? (fun p => p.player_id == pid) <;>
        rw [teamSpent_cons] <;> ring

theorem teamSpent_updateFirst_none {df : List Player} {pid : Nat} {f : Player → Player}
    {t : String} (hf : df.find? (fun p => p.player_id == pid) = none) :
    teamSpent (updateFirst df pid f) t = teamSpent df t := by
  rw [teamSpent_updateFirst, hf]

theorem teamSpent_updateFirst_some {df : List Player} {pid : Nat} {f : Player → Player}
    {t : String} {q : Player} (hf : df.find? (fun p => p.player_id == pid) = some q) :
    teamSpent (updateFirst df pid f) t =
      teamSpent df t - contrib t q + contrib t (f q) := by
  rw [teamSpent_updateFirst, hf]

theorem mem_updateFirst {df : List Player} {pid : Nat} {f : Player → Player}
    {p : Player} (hp : p ∈ updateFirst df pid f) :
    p ∈ df ∨ ∃ q, q ∈ df ∧ p = f q := by
  induction df with
  | nil => simpa [updateFirst] using hp
  | cons q rest ih =>
    by_cases h : (q.player_id == pid) = true
    · rw [updateFirst, if_pos h] at hp
      rcases List.mem_cons.mp hp with h1 | h1
      · exact Or.inr ⟨q, List.mem_cons_self q rest, h1⟩
      · exact Or.inl (List.mem_cons_of_mem q h1)
    · rw [updateFirst, if_neg (by simpa using h)] at hp
      rcases List.mem_cons.mp hp with h1 | h1
      · exact Or.inl (h1 ▸ List.mem_cons_self q rest)
      · rcases ih h1 with h2 | ⟨r, hr, he⟩
        · exact Or.inl (List.mem_cons_of_mem q h2)
        · exact Or.inr ⟨r, List.mem_cons_of_mem q hr, he⟩

theorem max_bid_le_remaining (cfg : Config) (df : List Player) (team : String)
    (hb : 0 ≤ cfg.base_price) :
    max_bid cfg df team ≤ max 0 (cfg.budget - teamSpent df team) := by
  simp only [max_bid]
  split
  · exact le_max_left 0 _
  · apply max_le_max (le_refl 0)
    have h0 : 0 ≤ max 0 (cfg.max_players - captainCount df team - soldCount df team - 1) *
        cfg.base_price :=
      mul_nonneg (le_max_left 0 _) hb
    linarith

theorem limits_get_map (ts : List String) (g : String → TeamLimit) (team : String)
    (tl : TeamLimit)
    (h : limits_get (ts.map (fun t => (t, g t))) team = some tl) : tl = g team := by
  induction ts with
  | nil => simp [limits_get] at h
  | cons a ts ih =>
    by_cases ha : (a == team) = true
    · have ha' : a = team := by simpa using ha
      subst ha'
      simp [limits_get, List.find?_cons] at h
      exact h.symm
    · have ha' : (a == team) = false := by simpa using ha
      apply ih
      simpa [limits_get, List.find?_cons, ha'] using h

theorem team_limit_for_max_bid (cfg : Config) (df : List Player) (player : Player)
    (m s : Option Int) (team : String) :
    (team_limit_for cfg df player m s team).max_bid = max_bid cfg df team := rfl

theorem limits_get_max_bid {cfg : Config} {df : List Player} {player : Player}
    {c : Int} {ct team : String} {tl : TeamLimit}
    (h : limits_get (compute_team_limits cfg df player c ct) team = some tl) :
    tl.max_bid = max_bid cfg df team := by
  have := limits_get_map cfg.teams
    (fun t => team_limit_for cfg df player
      (min_second_next cfg player c ct).1 (min_second_next cfg player c ct).2 t)
    team tl h
  rw [this]
  exact team_limit_for_max_bid cfg df player _ _ team

theorem lt_next_step (cfg : Config) (v : Int)
    (h0 : 0 < cfg.inc0) (h1 : 0 < cfg.inc1) (h2 : 0 < cfg.inc2) :
    v < next_step cfg v := by
  unfold next_step
  split
  · linarith
  · split
    · linarith
    · linarith

theorem ladder_chain (cfg : Config)
    (h0 : 0 < cfg.inc0) (h1 : 0 < cfg.inc1) (h2 : 0 < cfg.inc2) :
    ∀ (n : Nat) (cur : Int),
      List.Chain' (fun a b => b = next_step cfg a ∧ a < b) (ladderFrom cfg n cur) := by
  intro n
  induction n with
  | zero => intro cur; simp [ladderFrom]
  | succ m ih =>
    intro cur
    cases m with
    | zero => simp [ladderFrom]
    | succ k =>
      rw [ladderFrom, ladderFrom, List.chain'_cons]
      exact ⟨⟨rfl, lt_next_step cfg cur h0 h1 h2⟩, ih (next_step cfg cur)⟩

/-! Claim theorems. -/

/-- C1: for every team and player, the Affordability Calculator's
maximum legal bid is 0 when the team's sold+captain headcount is at
least `maxSquadSize`, and otherwise
`max(0, remainingBudget − reserveSlots × basePrice)` with
`reserveSlots = max(0, maxSquadSize − headcountWithCaptain − 1)`; it is
never negative, and it is exactly the `max_bid` field the calculator
reports for the team. -/
theorem max_legal_bid_formula (cfg : Config) (df : List Player) (team : String)
    (player : Player) (mnb snb : Option Int) :
    max_bid cfg df team =
      (if cfg.max_players ≤ soldCount df team + captainCount df team then 0
       else
         max 0 ((cfg.budget - teamSpent df team) -
           max 0 (cfg.max_players - (soldCount df team + captainCount df team) - 1) *
             cfg.base_price)) ∧
    0 ≤ max_bid cfg df team ∧
    (team_limit_for cfg df player mnb snb team).max_bid = max_bid cfg df team := by
  refine ⟨?_, ?_, team_limit_for_max_bid cfg df player mnb snb team⟩
  · simp only [max_bid]
    split
    · rfl
    · have he : cfg.max_players - captainCount df team - soldCount df team - 1 =
          cfg.max_players - (soldCount df team + captainCount df team) - 1 := by ring
      rw [he]
  · simp only [max_bid]
    split
    · exact le_refl 0
    · exact le_max_left 0 _

/-- C3: for every start price and positive increments, the increment
ladder starts exactly at the argument, each step adds `increments[0]`,
`increments[1]` or `increments[2]` according to whether the running
value is below `2×basePrice`, below `4×basePrice`, or at least
`4×basePrice` (re-evaluated at every step), so the sequence is strictly
increasing; with base 500,000 and increments [100,000, 250,000,
500,000] the ladder from 500,000 crosses the tier boundary at
1,000,000 and continues 1,250,000, …. -/
theorem ladder_tiered_strictly_increasing (cfg : Config) (price : Int)
    (h0 : 0 < cfg.inc0) (h1 : 0 < cfg.inc1) (h2 : 0 < cfg.inc2) :
    (get_bid_increments cfg price).head? = some price ∧
    List.Chain' (fun a b =>
      b = (if a < cfg.base_price * 2 then a + cfg.inc0
           else if a < cfg.base_price * 4 then a + cfg.inc1
           else a + cfg.inc2) ∧ a < b) (get_bid_increments cfg price) ∧
    (get_bid_increments cfg price).Pairwise (· < ·) ∧
    get_bid_increments cfgA 500000 =
      [500000, 600000, 700000, 800000, 900000,
       1000000, 1250000, 1500000, 1750000, 2000000] := by
  refine ⟨rfl, ?_, ?_, by decide⟩
  · exact ladder_chain cfg h0 h1 h2 10 price
  · have hc := ladder_chain cfg h0 h1 h2 10 price
    have hc' : List.Chain' (· < ·) (get_bid_increments cfg price) :=
      List.Chain'.imp (fun a b hab => hab.2) hc
    exact List.chain'_iff_pairwise.mp hc'

/-- Witness for C3 at a concrete configuration and start price. -/
theorem ladder_tiered_strictly_increasing_witness :
    (get_bid_increments cfgA 777).head? = some 777 :=
  (ladder_tiered_strictly_increasing cfgA 777 (by decide) (by decide) (by decide)).1

theorem apply_sell_some {cfg : Config} {df : List Player} {pid : Nat} {team : String}
    {price : Int} {df2 : List Player}
    (h : apply_sell cfg df pid team price = some df2) :
    teamSpent df team + price ≤ cfg.budget ∧
    df2 = updateFirst df pid
      (fun q => { q with team := team, status := "sold", sold_price := price }) := by
  unfold apply_sell at h
  cases hf : df.find? (fun p => p.player_id == pid) with
  | none => rw [hf] at h; exact absurd h (by simp)
  | some p =>
    simp only [hf] at h
    by_cases h1 : (str_lower p.status == "sold") = true
    · rw [if_pos h1] at h; exact absurd h (by simp)
    · rw [if_neg h1] at h
      split_ifs at h with h2 h3 h4
      exact ⟨not_lt.mp h3, (Option.some_inj.mp h).symm⟩

theorem apply_mark_sold_some {cfg : Config} {df : List Player} {player : Player}
    {st : String} {bid : Int} {df2 : List Player}
    (h : apply_mark_sold cfg df player st bid = some df2) :
    st ≠ "" ∧
    ∃ tl, limits_get (compute_team_limits cfg df player bid "") st = some tl ∧
      bid ≤ tl.max_bid ∧
      df2 = updateFirst df player.player_id
        (fun q => { q with team := st, status := "sold", sold_price := bid }) := by
  unfold apply_mark_sold at h
  by_cases hst : st = ""
  · rw [if_pos hst] at h; exact absurd h (by simp)
  · rw [if_neg hst] at h
    cases hl : limits_get (compute_team_limits cfg df player bid "") st with
    | none => rw [hl] at h; exact absurd h (by simp)
    | some tl =>
      simp only [hl] at h
      by_cases hm : tl.max_bid < bid
      · rw [if_pos hm] at h; exact absurd h (by simp)
      · rw [if_neg hm] at h
        exact ⟨hst, tl, rfl, not_lt.mp hm, (Option.some_inj.mp h).symm⟩

theorem sold_update_preserves (cfg : Config) (df : List Player) (team : String)
    (price : Int) (pid : Nat)
    (hps : 0 ≤ price) (hsb : teamSpent df team + price ≤ cfg.budget)
    (hs : ∀ t, teamSpent df t ≤ cfg.budget) (hn : ∀ p ∈ df, 0 ≤ p.sold_price) :
    (∀ t, teamSpent (updateFirst df pid
        (fun q => { q with team := team, status := "sold", sold_price := price })) t ≤
      cfg.budget) ∧
    (∀ p ∈ updateFirst df pid
        (fun q => { q with team := team, status := "sold", sold_price := price }),
      0 ≤ p.sold_price) := by
  constructor
  · intro t
    cases hf : df.find? (fun p => p.player_id == pid) with
    | none => rw [teamSpent_updateFirst_none hf]; exact hs t
    | some q =>
      rw [teamSpent_updateFirst_some hf]
      have hq : q ∈ df := List.mem_of_find?_eq_some hf
      have hcq : 0 ≤ contrib t q := by
        unfold contrib; split
        · exact hn q hq
        · exact le_refl 0
      by_cases ht : team = t
      · have hcf : contrib t { q with team := team, status := "sold", sold_price := price } =
            price := by simp [contrib, ht]
        rw [hcf]
        have : teamSpent df team = teamSpent df t := by rw [ht]
        linarith [this ▸ hsb]
      · have hcf : contrib t { q with team := team, status := "sold", sold_price := price } =
            0 := by simp [contrib, ht]
        rw [hcf]
        have := hs t
        linarith
  · intro p hp
    rcases mem_updateFirst hp with h | ⟨q, _, he⟩
    · exact hn p h
    · rw [he]; exact hps

theorem accepted_op_preserves (cfg : Config) (df : List Player) (op : SaleOp)
    (hb : 0 ≤ cfg.base_price) (hp : 0 ≤ op.price)
    (hs : ∀ t, teamSpent df t ≤ cfg.budget) (hn : ∀ p ∈ df, 0 ≤ p.sold_price) :
    (∀ t, teamSpent ((applyOp cfg df op).getD df) t ≤ cfg.budget) ∧
    (∀ p ∈ (applyOp cfg df op).getD df, 0 ≤ p.sold_price) := by
  cases op with
  | sell pid team price =>
    cases ha : apply_sell cfg df pid team price with
    | none => simpa [applyOp, ha] using ⟨hs, hn⟩
    | some df2 =>
      rcases apply_sell_some ha with ⟨hsb, hdf2⟩
      have := sold_update_preserves cfg df team price pid hp hsb hs hn
      simpa [applyOp, ha, hdf2] using this
  | markSold player team bid =>
    cases ha : apply_mark_sold cfg df player team bid with
    | none => simpa [applyOp, ha] using ⟨hs, hn⟩
    | some df2 =>
      rcases apply_mark_sold_some ha with ⟨-, tl, hl, hbid, hdf2⟩
      have hmb : tl.max_bid = max_bid cfg df team := limits_get_max_bid hl
      have hle : bid ≤ max 0 (cfg.budget - teamSpent df team) :=
        le_trans (hmb ▸ hbid) (max_bid_le_remaining cfg df team hb)
      have hsb : teamSpent df team + bid ≤ cfg.budget := by
        rcases le_max_iff.mp hle with h | h
        · linarith [hs team]
        · linarith
      have := sold_update_preserves cfg df team bid player.player_id hp hsb hs hn
      simpa [applyOp, ha, hdf2] using this

theorem run_preserves (cfg : Config) (ops : List SaleOp) :
    ∀ df : List Player, 0 ≤ cfg.base_price → (∀ op ∈ ops, 0 ≤ op.price) →
      (∀ t, teamSpent df t ≤ cfg.budget) → (∀ p ∈ df, 0 ≤ p.sold_price) →
      (∀ t, teamSpent (runAccepted cfg df ops) t ≤ cfg.budget) ∧
      (∀ p ∈ runAccepted cfg df ops, 0 ≤ p.sold_price) := by
  induction ops with
  | nil => intro df _ _ hs hn; exact ⟨hs, hn⟩
  | cons op ops ih =>
    intro df hb hp hs hn
    have step := accepted_op_preserves cfg df op hb (hp op (List.mem_cons_self op ops)) hs hn
    have hrw : runAccepted cfg df (op :: ops) =
        runAccepted cfg ((applyOp cfg df op).getD df) ops := rfl
    rw [hrw]
    exact ih _ hb (fun o ho => hp o (List.mem_cons_of_mem op ho)) step.1 step.2

/-- C2 counterexample: from a store in which every configured team's
spent is within the (tiny) budget but one row carries a negative
recorded `sold_price`, the `/auction` sell route accepts a sale at a
negative price that re-assigns that row away from team `"B"`, after
which `"B"`'s recorded spent (150) exceeds the budget (100). -/
theorem budget_invariant_cex :
    cfgC2.teams = ["A", "B"] ∧
    teamSpent dfC2 "A" ≤ cfgC2.budget ∧ teamSpent dfC2 "B" ≤ cfgC2.budget ∧
    (apply_sell cfgC2 dfC2 1 "A" (-40000000)).map (fun d => teamSpent d "B") =
      some 150 ∧
    cfgC2.budget < 150 := by decide

/-- C2 amended: under well-formed currency amounts (nonnegative
configured base price, nonnegative recorded sold prices in the starting
store, nonnegative sale prices), every store reached by a sequence of
sell / mark-sold operations — each rejected operation leaving the store
unchanged, as the routes do — keeps every team's spent within the
configured budget. -/
theorem budget_invariant (cfg : Config) (df : List Player) (ops : List SaleOp)
    (hb : 0 ≤ cfg.base_price) (hp : ∀ op ∈ ops, 0 ≤ op.price)
    (hn : ∀ p ∈ df, 0 ≤ p.sold_price) (hs : ∀ t, teamSpent df t ≤ cfg.budget) :
    ∀ t, teamSpent (runAccepted cfg df ops) t ≤ cfg.budget :=
  (run_preserves cfg ops df hb hp hs hn).1

/-- Witness for C2 at a concrete accepted sale. -/
theorem budget_invariant_witness :
    teamSpent (runAccepted cfgA df5 [SaleOp.sell 1 "A" 5000000]) "A" ≤ cfgA.budget :=
  budget_invariant cfgA df5 [SaleOp.sell 1 "A" 5000000] (by decide) (by decide)
    (by decide)
    (fun t => by
      simp only [df5, teamSpent, contrib, List.map_cons, List.map_nil, List.sum_cons,
        List.sum_nil]
      split <;> decide)
    "A"

/-- C4 counterexample: in sequential mode with the next queued player's
own base price 300,000 under `cfgA` (global base price 500,000),
`next_player` starts the lot at 500,000, not at the player's own base
price. -/
theorem next_player_base_price_cex :
    (next_player cfgA df4 ⟨true, 0, [1, 2]⟩ ⟨some 1, 300000, "", "bidding"⟩).2 =
      ⟨some 2, 500000, "", "bidding"⟩ ∧
    (df4.find? (fun p => p.player_id == 2)).map (fun p => p.base_price) =
      some 300000 ∧
    (500000 : Int) ≠ 300000 := by decide

/-- C4 amended: `next_player` increments the index; within bounds it
starts the lot for the next queued player id — at the configured global
base price, not the player's own; past the end it starts a new round
over exactly the still-unsold players with the index reset to 0 (again
at the global base price), or, when none remain, marks the sequential
auction inactive and returns the lot to waiting. -/
theorem next_player_advance (cfg : Config) (df : List Player) (seq : SeqState)
    (lot : LotState) :
    (seq.current_index + 1 < seq.player_sequence.length →
      next_player cfg df seq lot =
        (⟨seq.active, seq.current_index + 1, seq.player_sequence⟩,
         ⟨some (seq.player_sequence.getD (seq.current_index + 1) 0),
          cfg.base_price, "", "bidding"⟩)) ∧
    (seq.player_sequence.length ≤ seq.current_index + 1 → unsoldIds df ≠ [] →
      next_player cfg df seq lot =
        (⟨true, 0, unsoldIds df⟩,
         ⟨some ((unsoldIds df).headD 0), cfg.base_price, "", "bidding"⟩)) ∧
    (seq.player_sequence.length ≤ seq.current_index + 1 → unsoldIds df = [] →
      next_player cfg df seq lot =
        (⟨false, seq.current_index + 1, seq.player_sequence⟩,
         ⟨none, lot.current_bid, lot.current_team, "waiting"⟩)) := by
  refine ⟨fun h => ?_, fun h hu => ?_, fun h hu => ?_⟩
  · rw [next_player, if_neg (not_le.mpr h)]
  · rw [next_player, if_pos h, if_pos (List.length_pos.mpr hu)]
  · rw [next_player, if_pos h, if_neg (by simp [hu])]

/-- Witness for C4 at a concrete end-of-round state with unsold players
remaining. -/
theorem next_player_advance_witness :
    next_player cfgA df4 ⟨true, 1, [1, 2]⟩ ⟨some 2, 300000, "", "bidding"⟩ =
      (⟨true, 0, [1, 2]⟩, ⟨some 1, 500000, "", "bidding"⟩) :=
  (next_player_advance cfgA df4 ⟨true, 1, [1, 2]⟩
    ⟨some 2, 300000, "", "bidding"⟩).2.1 (by decide) (by decide)

/-- C5 counterexample: with team `"A"` leading at 500,000 under `cfgA`,
a bid of 700,000 by team `"B"` — the second ladder value above the
current bid, not the immediate next 600,000 — is accepted. -/
theorem place_bid_jump_cex :
    update_bid cfgA df5 p5 ⟨some 1, 500000, "A", "bidding"⟩ "B" 700000 =
      some ⟨some 1, 700000, "B", "bidding"⟩ ∧
    ((get_bid_increments cfgA 500000).filter (fun p => 500000 < p)).head? =
      some 600000 ∧
    (700000 : Int) ≠ 600000 := by decide

/-- C5 amended: `update_bid` accepts an amount iff the team is nonempty
and configured with `max_bid` at least the amount, the amount exceeds
the current bid when a leading team exists (is at least the shown price
when none does), and the amount lies in the `valid_next` list — any of
the ladder values above the current bid within the 10-entry window, or
the current bid itself as a first bid — off-window or off-ladder
amounts are rejected and a rejected bid returns no new lot state. -/
theorem place_bid_characterization (cfg : Config) (df : List Player) (player : Player)
    (lot : LotState) (team : String) (new_bid : Int) :
    (∀ lotR, update_bid cfg df player lot team new_bid = some lotR →
      lotR = ⟨lot.player_id, new_bid, team, "bidding"⟩) ∧
    ((update_bid cfg df player lot team new_bid).isSome = true ↔
      team ≠ "" ∧
      (∃ tl, limits_get (compute_team_limits cfg df player lot.current_bid "") team =
          some tl ∧ new_bid ≤ tl.max_bid) ∧
      (lot.current_team ≠ "" → lot.current_bid < new_bid) ∧
      (lot.current_team = "" → lot.current_bid ≤ new_bid) ∧
      new_bid ∈ valid_next_bids cfg player lot) := by
  by_cases hteam : team = ""
  · constructor
    · intro lotR h
      rw [update_bid, if_pos hteam] at h
      exact absurd h (by simp)
    · rw [update_bid, if_pos hteam]
      simp [hteam]
  · cases hl : limits_get (compute_team_limits cfg df player lot.current_bid "") team with
    | none =>
      constructor
      · intro lotR h
        rw [update_bid, if_neg hteam] at h
        simp only [hl] at h
        exact absurd h (by simp)
      · rw [update_bid, if_neg hteam]
        simp only [hl]
        simp
    | some tl =>
      constructor
      · intro lotR h
        rw [update_bid, if_neg hteam] at h
        simp only [hl] at h
        by_cases hlead : lot.current_team = ""
        · rw [if_neg (fun hc => hc hlead)] at h
          split_ifs at h
          exact (Option.some_inj.mp h).symm
        · rw [if_pos hlead] at h
          split_ifs at h
          exact (Option.some_inj.mp h).symm
      · rw [update_bid, if_neg hteam]
        simp only [hl]
        by_cases hlead : lot.current_team = ""
        · rw [if_neg (fun hc => hc hlead)]
          constructor
          · intro hsome
            split_ifs at hsome with g1 g2 g3
            · exact absurd hsome (by simp)
            · exact absurd hsome (by simp)
            · exact ⟨hteam, ⟨tl, rfl, not_lt.mp g2⟩,
                fun hc => absurd hlead hc, fun _ => not_lt.mp g1, g3⟩
            · exact absurd hsome (by simp)
          · rintro ⟨-, ⟨tl', htl', hmax⟩, -, h4, h5⟩
            have htl : tl' = tl := (Option.some_inj.mp htl').symm
            rw [if_neg (not_lt.mpr (h4 hlead)),
              if_neg (not_lt.mpr (htl ▸ hmax)), if_pos h5]
            rfl
        · rw [if_pos hlead]
          constructor
          · intro hsome
            split_ifs at hsome with g1 g2 g3
            · exact absurd hsome (by simp)
            · exact absurd hsome (by simp)
            · exact ⟨hteam, ⟨tl, rfl, not_lt.mp g2⟩,
                fun _ => not_le.mp g1, fun hc => absurd hc hlead, g3⟩
            · exact absurd hsome (by simp)
          · rintro ⟨-, ⟨tl', htl', hmax⟩, h3, -, h5⟩
            have htl : tl' = tl := (Option.some_inj.mp htl').symm
            rw [if_neg (not_le.mpr (h3 hlead)),
              if_neg (not_lt.mpr (htl ▸ hmax)), if_pos h5]
            rfl

/-- Witness for C5 at the concrete leading-team jump bid. -/
theorem place_bid_characterization_witness :
    (update_bid cfgA df5 p5 ⟨some 1, 500000, "A", "bidding"⟩ "B" 700000).isSome =
      true ↔
      "B" ≠ "" ∧
      (∃ tl, limits_get
          (compute_team_limits cfgA df5 p5
            (LotState.mk (some 1) 500000 "A" "bidding").current_bid "") "B" =
          some tl ∧ 700000 ≤ tl.max_bid) ∧
      ((LotState.mk (some 1) 500000 "A" "bidding").current_team ≠ "" →
        (LotState.mk (some 1) 500000 "A" "bidding").current_bid < 700000) ∧
      ((LotState.mk (some 1) 500000 "A" "bidding").current_team = "" →
        (LotState.mk (some 1) 500000 "A" "bidding").current_bid ≤ 700000) ∧
      (700000 : Int) ∈ valid_next_bids cfgA p5 ⟨some 1, 500000, "A", "bidding"⟩ :=
  (place_bid_characterization cfgA df5 p5 ⟨some 1, 500000, "A", "bidding"⟩ "B" 700000).2

/-- C6 counterexample: marking sold with `current_bid = 0` and no form
team is rejected and persists nothing, but the in-memory lot after the
call differs from the lot before it — the code has already overwritten
`current_bid` (0 → the player's base price 500,000). -/
theorem mark_sold_mutates_lot_cex :
    (mark_sold cfgA df5 p5 ⟨some 1, 0, "", "bidding"⟩ "").accepted = false ∧
    (mark_sold cfgA df5 p5 ⟨some 1, 0, "", "bidding"⟩ "").df = df5 ∧
    (mark_sold cfgA df5 p5 ⟨some 1, 0, "", "bidding"⟩ "").lot =
      ⟨some 1, 500000, "", "bidding"⟩ ∧
    (⟨some 1, 500000, "", "bidding"⟩ : LotState) ≠ ⟨some 1, 0, "", "bidding"⟩ := by
  decide

/-- C6 amended: when a bid has been placed (`current_bid ≠ 0`), a
rejected mark-sold leaves both the store and the in-memory lot exactly
unchanged, and an accepted one implies the leading team is nonempty,
configured, and has `max_bid` at least the current bid; when
`current_bid = 0` the code first overwrites the lot's bid with the
player's base price and its team with the form team, and a rejection
leaves that overwritten lot in memory. -/
theorem mark_sold_reject_behavior (cfg : Config) (df : List Player) (player : Player)
    (lot : LotState) (form_team : String) (hbid : lot.current_bid ≠ 0) :
    ((mark_sold cfg df player lot form_team).accepted = false →
      (mark_sold cfg df player lot form_team).df = df ∧
      (mark_sold cfg df player lot form_team).lot = lot) ∧
    ((mark_sold cfg df player lot form_team).accepted = true →
      lot.current_team ≠ "" ∧
      ∃ tl, limits_get (compute_team_limits cfg df player lot.current_bid "")
          lot.current_team = some tl ∧ lot.current_bid ≤ tl.max_bid) := by
  have hsub : mark_sold cfg df player lot form_team =
      match apply_mark_sold cfg df player lot.current_team lot.current_bid with
      | some df2 => ⟨df2, ⟨none, 0, "", "waiting"⟩, true⟩
      | none => ⟨df, lot, false⟩ := by
    rw [mark_sold, if_neg hbid]
  cases ha : apply_mark_sold cfg df player lot.current_team lot.current_bid with
  | none =>
    rw [hsub]
    simp only [ha]
    simp
  | some df2 =>
    rw [hsub]
    simp only [ha]
    refine ⟨fun h => absurd h (by simp), fun _ => ?_⟩
    rcases apply_mark_sold_some ha with ⟨hne, tl, hl, hle, -⟩
    exact ⟨hne, tl, hl, hle⟩

/-- Witness for C6 at a concrete rejected sale with a nonzero bid. -/
theorem mark_sold_reject_behavior_witness :
    (mark_sold cfgA df5 p5 ⟨some 1, 700000, "Z", "bidding"⟩ "").df = df5 ∧
    (mark_sold cfgA df5 p5 ⟨some 1, 700000, "Z", "bidding"⟩ "").lot =
      ⟨some 1, 700000, "Z", "bidding"⟩ :=
  (mark_sold_reject_behavior cfgA df5 p5 ⟨some 1, 700000, "Z", "bidding"⟩ ""
    (by decide)).1 (by decide)

/-- C7 counterexample: with a lot already active (status `"bidding"`,
player 1 leading at 700,000), starting bidding for player 2 does not
fail with `InvalidState`: it succeeds and replaces the active lot. -/
theorem start_lot_overwrites_cex :
    start_bidding df7 2 ⟨some 1, 700000, "A", "bidding"⟩ =
      Except.ok ⟨some 2, 600000, "", "bidding"⟩ ∧
    (⟨some 1, 700000, "A", "bidding"⟩ : LotState).status = "bidding" ∧
    (⟨some 2, 600000, "", "bidding"⟩ : LotState) ≠
      ⟨some 1, 700000, "A", "bidding"⟩ :=
  ⟨rfl, rfl, by decide⟩

/-- C7 amended: when no player with the id exists, the route raises an
uncaught `IndexError` at the initial `iloc[0]` — before any state
change, so the lot is untouched, but the failure is an unhandled
exception, not a recoverable `NotFound`; when the player exists,
`start_bidding` never fails on an already-active lot: it unconditionally
replaces the lot with a fresh one at the player's base price. -/
theorem start_lot_behavior (df : List Player) (pid : Nat) (lot : LotState) :
    (df.find? (fun p => p.player_id == pid) = none →
      start_bidding df pid lot = Except.error "IndexError") ∧
    (∀ p, df.find? (fun p => p.player_id == pid) = some p →
      start_bidding df pid lot =
        Except.ok ⟨some pid, p.base_price, "", "bidding"⟩) := by
  constructor
  · intro h
    rw [start_bidding, h]
  · intro p h
    rw [start_bidding, h]

/-- Witness for C7 at a concrete missing player id. -/
theorem start_lot_behavior_witness :
    start_bidding df7 5 ⟨some 1, 700000, "A", "bidding"⟩ =
      Except.error "IndexError" :=
  (start_lot_behavior df7 5 ⟨some 1, 700000, "A", "bidding"⟩).1 (by decide)

/-- C8 counterexample: in `df8` team `"A"`'s sold+captain headcount is
`maxSquadSize − 1` (8 of 9), yet the required next bid from the tier-3
price 2,000,000 under `cfgA` is 2,500,000 — a tier-3 step of
`increments[2]` — not the 2,100,000 a collapse to `increments[0]` would
give. -/
theorem no_last_slot_override_cex :
    soldCount df8 "A" + captainCount df8 "A" = cfgA.max_players - 1 ∧
    (min_second_next cfgA ⟨9, 500000, "", "unsold", 0⟩ 2000000 "A").1 =
      some 2500000 ∧
    (2500000 : Int) = 2000000 + cfgA.inc2 ∧
    (2500000 : Int) ≠ 2000000 + cfgA.inc0 := by decide

/-- C8 amended: there is no last-slot override — the required-next-bid
computation reads no team roster data at all, so even when some team's
sold+captain headcount equals `maxSquadSize − 1`, a current price in
tier 3 steps by `increments[2]`. -/
theorem next_required_bid_ignores_headcounts (cfg : Config) (df : List Player)
    (player : Player) (curr : Int) (ct : String)
    (hb : 0 ≤ cfg.base_price) (h2 : 0 < cfg.inc2)
    (ht : cfg.base_price * 4 ≤ curr) (hp : player.base_price < curr)
    (_hteam : ∃ t ∈ cfg.teams,
      soldCount df t + captainCount df t = cfg.max_players - 1) :
    (min_second_next cfg player curr ct).1 = some (curr + cfg.inc2) := by
  have hstep : next_step cfg curr = curr + cfg.inc2 := by
    rw [next_step, if_neg (by linarith), if_neg (by linarith)]
  have hcons : get_bid_increments cfg curr =
      curr :: next_step cfg curr ::
        ladderFrom cfg 8 (next_step cfg (next_step cfg curr)) := rfl
  rw [min_second_next, if_neg (by intro hc; linarith [hc.1])]
  simp only [hcons, hstep, List.filter_cons]
  rw [if_neg (by simp), if_pos (by simp [h2])]
  rfl

/-- Witness for C8 at the concrete one-slot-from-full store. -/
theorem next_required_bid_ignores_headcounts_witness :
    (min_second_next cfgA ⟨9, 500000, "", "unsold", 0⟩ 2000000 "A").1 =
      some (2000000 + cfgA.inc2) :=
  next_required_bid_ignores_headcounts cfgA df8 ⟨9, 500000, "", "unsold", 0⟩
    2000000 "A" (by decide) (by decide) (by decide) (by decide)
    ⟨"A", by decide, by decide⟩

/-- C9: `reset_auction` always raises the `NameError` for the undefined
`bump_auction_version` — after having persisted every sold row back to
unsold and reset the lot; `reset_player` raises the same `NameError`
exactly when the reset player is the currently active lot, and then only
after the player row has been persisted as unsold. -/
theorem reset_routes_raise_name_error (df : List Player) (lot : LotState) (pid : Nat) :
    (reset_auction df lot).outcome =
      Except.error (PyError.nameError "bump_auction_version") ∧
    (reset_auction df lot).df = df.map (fun p =>
      if p.status = "sold" then
        { p with status := "unsold", team := "", sold_price := 0 }
      else p) ∧
    (reset_auction df lot).lot = ⟨none, 0, "", "waiting"⟩ ∧
    (df.any (fun p => p.player_id == pid) = true → lot.player_id = some pid →
      (reset_player df lot pid).outcome =
        Except.error (PyError.nameError "bump_auction_version") ∧
      (reset_player df lot pid).df = updateFirst df pid (fun p =>
        { p with status := "unsold", team := "", sold_price := 0 })) := by
  refine ⟨rfl, rfl, rfl, fun h1 h2 => ?_⟩
  rw [reset_player, if_pos h1, if_pos h2]
  exact ⟨rfl, rfl⟩

/-- Witness for C9: resetting the currently active player. -/
theorem reset_routes_raise_name_error_witness :
    (reset_player df5 ⟨some 1, 700000, "A", "bidding"⟩ 1).outcome =
      Except.error (PyError.nameError "bump_auction_version") ∧
    (reset_player df5 ⟨some 1, 700000, "A", "bidding"⟩ 1).df =
      updateFirst df5 1 (fun p =>
        { p with status := "unsold", team := "", sold_price := 0 }) :=
  (reset_routes_raise_name_error df5 ⟨some 1, 700000, "A", "bidding"⟩ 1).2.2.2
    (by decide) rfl

/-- C10: the sell route's bound and the Affordability Calculator's bound
disagree — with team `"A"` holding 5 sold+captain players under the
default configuration the sell route allows up to 15,000,000 while
`compute_team_limits` allows 10,000,000, so the 12,000,000 sale is
accepted by the sell route and rejected by the mark-sold path; the
sell-route bound moreover has no floor at zero (for an empty roster it
is −10,000,000). -/
theorem sell_vs_limits_divergence :
    max_allowed_bid cfgT dfT "A" = 15000000 ∧
    max_bid cfgT dfT "A" = 10000000 ∧
    (15000000 : Int) ≠ 10000000 ∧
    (apply_sell cfgT dfT 6 "A" 12000000).isSome = true ∧
    apply_mark_sold cfgT dfT ⟨6, 5000000, "", "unsold", 0⟩ "A" 12000000 = none ∧
    max_allowed_bid cfgT [] "A" = -10000000 := by decide

end Auction
